import Mathlib

/-!
Verification of the memory-management core of the `mrjbom/OS` kernel.

The definitions below are a shallow embedding of
`src/kernel/src/memory_management/physical_memory_manager.rs`,
`virtual_memory_manager.rs`, `slab_allocator.rs` and
`general_purpose_allocator.rs`.  Machine integers (`u64`/`usize`) are
modelled as `Nat`, with an explicit `% 2^64` only where wrapping matters
(the CPMM address translation).  Physical addresses are plain `Nat`.
Fallible paths (Rust `panic!` / failed `assert!` / `.unwrap()` on `None`)
are modelled with `Option`: `none` is a fatal initialization failure.
-/

/-- `PAGE_SIZE` from `memory_management/mod.rs`. -/
def PAGE_SIZE : Nat := 4096

/-- `x86_64::align_up` specialised to a power-of-two alignment:
round `n` up to the next multiple of `p`. -/
def alignUp (n p : Nat) : Nat := ((n + p - 1) / p) * p

/-- `x86_64::align_down`: round `n` down to a multiple of `p`. -/
def alignDown (n p : Nat) : Nat := (n / p) * p

/-- `ISA_DMA_ZONE_MIN_FIRST_PAGE_ADDR` (= `0x100000`). -/
def ISA_DMA_ZONE_MIN_FIRST_PAGE_ADDR : Nat := 0x100000

/-- `ISA_DMA_ZONE_MAX_LAST_PAGE_ADDR` (= `0xFFF000`). -/
def ISA_DMA_ZONE_MAX_LAST_PAGE_ADDR : Nat := 0xFFF000

/-- `DMA32_MIN_FIRST_PAGE_ADDR` (= `0x1000000`). -/
def DMA32_MIN_FIRST_PAGE_ADDR : Nat := 0x1000000

/-- `DMA32_MAX_LAST_PAGE_ADDR` (= `0xFFFF_F000`). -/
def DMA32_MAX_LAST_PAGE_ADDR : Nat := 0xFFFFF000

/-- `HIGH_ZONE_MIN_FIRST_PAGE_ADDR` (= `0x1_0000_0000`). -/
def HIGH_ZONE_MIN_FIRST_PAGE_ADDR : Nat := 0x100000000

/-- `HIGH_ZONE_MAX_LAST_PAGE_ADDR` (= `0xFF_FFFF_F000`). -/
def HIGH_ZONE_MAX_LAST_PAGE_ADDR : Nat := 0xFFFFFFF000

/-- `bootloader_api::info::MemoryRegionKind` (only the `Usable` kind is
consulted by the collector; everything else is grouped as `Other`). -/
inductive MemoryRegionKind where
  | Usable
  | Other
deriving DecidableEq

/-- `bootloader_api::info::MemoryRegion`: `{start, end (exclusive), kind}`.
The exclusive upper bound is called `stop` here because `end` is reserved
in Lean. -/
structure MemoryRegion where
  start : Nat
  stop : Nat
  kind : MemoryRegionKind
deriving DecidableEq

/-- `UsableRegion` from `physical_memory_manager.rs`: an inclusive,
page-aligned range of physical pages. -/
structure UsableRegion where
  first_page : Nat
  last_page : Nat
deriving DecidableEq

/-- `UsableRegion::size`: `last_page + PAGE_SIZE - first_page`. -/
def UsableRegion.size (r : UsableRegion) : Nat :=
  r.last_page + PAGE_SIZE - r.first_page

/-- The four region lists (`USABLE_REGIONS`, `ISA_DMA_USABLE_REGIONS`,
`DMA32_USABLE_REGIONS`, `HIGH_USABLE_REGIONS`). -/
structure RegionLists where
  all : List UsableRegion
  isa : List UsableRegion
  dma32 : List UsableRegion
  high : List UsableRegion
deriving DecidableEq

/-- The filter/align/discard step of `collect_usable_regions` for a single
memory-map entry (lines 296-325 of `physical_memory_manager.rs`):
non-usable entries, entries starting below the ISA-DMA floor or ending
above the HIGH ceiling, and entries whose aligned span is too small are
dropped; the survivor is page-aligned inward. -/
def collectOne (m : MemoryRegion) : Option UsableRegion :=
  if m.kind ≠ MemoryRegionKind.Usable then none
  else if m.start < ISA_DMA_ZONE_MIN_FIRST_PAGE_ADDR ∨
          m.stop > HIGH_ZONE_MAX_LAST_PAGE_ADDR then none
  else
    let first_page := alignUp m.start PAGE_SIZE
    let last_page := alignDown (m.stop - PAGE_SIZE) PAGE_SIZE
    if last_page ≤ first_page then none
    else if last_page - first_page < PAGE_SIZE then none
    else some ⟨first_page, last_page⟩

/-- Insertion of one region into a list sorted by `first_page`
(helper for the model of `sort_unstable_by_key`). -/
def insertByFirstPage (r : UsableRegion) : List UsableRegion → List UsableRegion
  | [] => [r]
  | x :: xs =>
    if r.first_page ≤ x.first_page then r :: x :: xs
    else x :: insertByFirstPage r xs

/-- Model of `sort_unstable_by_key(|a| a.first_page)` as insertion sort
(the collected regions of a well-formed memory map have pairwise distinct
keys, for which any correct sort produces the same list). -/
def sortByFirstPage : List UsableRegion → List UsableRegion
  | [] => []
  | x :: xs => insertByFirstPage x (sortByFirstPage xs)

/-- `adjust_usable_region` (lines 411-432): clip a region to the zone
bounds, `none` when the region does not overlap the zone at all. -/
def adjust_usable_region (usable_region : UsableRegion)
    (limit_first_page limit_last_page : Nat) : Option UsableRegion :=
  if usable_region.last_page < limit_first_page ∨
     usable_region.first_page > limit_last_page then
    none
  else
    let f := if usable_region.first_page < limit_first_page then
               limit_first_page else usable_region.first_page
    let l := if usable_region.last_page > limit_last_page then
               limit_last_page else usable_region.last_page
    some ⟨f, l⟩

/-- `collect_usable_regions` (lines 293-408): filter and align the usable
entries, sort the ALL list, then derive the three zone lists by clipping
every ALL region against each zone's bounds. -/
def collect_usable_regions (memory_regions : List MemoryRegion) : RegionLists :=
  let all := sortByFirstPage (memory_regions.filterMap collectOne)
  { all := all
    isa := all.filterMap fun r =>
      adjust_usable_region r ISA_DMA_ZONE_MIN_FIRST_PAGE_ADDR
        ISA_DMA_ZONE_MAX_LAST_PAGE_ADDR
    dma32 := all.filterMap fun r =>
      adjust_usable_region r DMA32_MIN_FIRST_PAGE_ADDR DMA32_MAX_LAST_PAGE_ADDR
    high := all.filterMap fun r =>
      adjust_usable_region r HIGH_ZONE_MIN_FIRST_PAGE_ADDR
        HIGH_ZONE_MAX_LAST_PAGE_ADDR }

/-- The "Don't forget to change data in other list" loops
(`physical_memory_manager.rs` lines 459-480 and 660-667): advance the
`first_page` of the first region whose `first_page` equals `oldFirst`
to `newFirst`, leaving everything else unchanged. -/
def advanceFirstMatching (oldFirst newFirst : Nat) :
    List UsableRegion → List UsableRegion
  | [] => []
  | v :: rest =>
    if v.first_page = oldFirst then { v with first_page := newFirst } :: rest
    else v :: advanceFirstMatching oldFirst newFirst rest

/-- The donor search of `init_slab_info_ptrs_array` (lines 451-484), which
walks the ALL list in reverse: take the first region (scanning from the
front of the given list) whose size is at least `required + PAGE_SIZE`,
advance its `first_page` by `required`, and return its old `first_page`. -/
def carveFirstFit (required : Nat) :
    List UsableRegion → Option (Nat × List UsableRegion)
  | [] => none
  | r :: rest =>
    if required + PAGE_SIZE ≤ r.size then
      some (r.first_page, { r with first_page := r.first_page + required } :: rest)
    else
      (carveFirstFit required rest).map fun x => (x.1, r :: x.2)

/-- `iter_mut().rev()` donor search over the ALL list: first fit scanning
from the end. -/
def carveFromEnd (required : Nat) (l : List UsableRegion) :
    Option (Nat × List UsableRegion) :=
  (carveFirstFit required l.reverse).map fun x => (x.1, x.2.reverse)

/-- Number of `SlabInfo` pointer slots computed by
`init_slab_info_ptrs_array` (lines 438-441): one per page from the first
usable page to the last usable page. -/
def numberOfSlabInfos (first_usable_page_addr last_usable_page_addr : Nat) : Nat :=
  (last_usable_page_addr + PAGE_SIZE - first_usable_page_addr) / PAGE_SIZE

/-- `init_slab_info_ptrs_array` (lines 435-513): size the SlabInfo pointer
array from the first/last usable page, page-round it (pointer size 8),
carve the storage out of the last big-enough usable region and mirror the
`first_page` advance into the zone lists.  `none` models the `unwrap()`
panic on an empty ALL list and the "Failed to find memory for SlabInfo
pointers array" assert. -/
def init_slab_info_ptrs_array (ls : RegionLists) : Option (Nat × RegionLists) :=
  match ls.all.head?, ls.all.getLast? with
  | some f, some lr =>
    let number_of_slab_infos := numberOfSlabInfos f.first_page lr.last_page
    let required := alignUp (number_of_slab_infos * 8) PAGE_SIZE
    match carveFromEnd required ls.all with
    | none => none
    | some (addr, all') =>
      some (number_of_slab_infos,
        { all := all'
          isa := advanceFirstMatching addr (addr + required) ls.isa
          dma32 := advanceFirstMatching addr (addr + required) ls.dma32
          high := advanceFirstMatching addr (addr + required) ls.high })
  | _, _ => none

/-- Arena span computed in `init_allocators` step 1 for a (nonempty) zone
list: from the zone's first usable page to its last usable page. -/
def rangeSizeOf (l : List UsableRegion) : Nat :=
  match l.head?, l.getLast? with
  | some f, some lr => lr.last_page + PAGE_SIZE - f.first_page
  | _, _ => 0

/-- The HIGH-zone metadata carving loop of `init_allocators`
(lines 652-678): find the first DMA32 region with
`size >= metadata_size + PAGE_SIZE`, advance its `first_page` by
`metadata_size`, mirror the change into the ALL list, and return the old
`first_page` (the physical address of the metadata storage). -/
def carveHighMetadata (metadata_size : Nat) :
    List UsableRegion → List UsableRegion →
    Option (Nat × List UsableRegion × List UsableRegion)
  | [], _ => none
  | r :: rest, all =>
    if metadata_size + PAGE_SIZE ≤ r.size then
      some (r.first_page,
        { r with first_page := r.first_page + metadata_size } :: rest,
        advanceFirstMatching r.first_page (r.first_page + metadata_size) all)
    else
      (carveHighMetadata metadata_size rest all).map
        fun x => (x.1, r :: x.2.1, x.2.2)

/-- Which buddy allocators were initialized (`ISA_DMA_ZONE` /
`DMA32_ZONE` / `HIGH_ZONE` being `Some`). -/
structure ZonesInited where
  isaDma : Bool
  dma32 : Bool
  high : Bool
deriving DecidableEq

/-- `init_allocators` (lines 516-729), parameterized by the external
`BuddyAlloc::sizeof_alignment` of the `buddy_alloc` crate (not part of
this repository).  A zone with an empty region list is skipped (left
uninitialized).  `none` models the fatal asserts: an ISA-DMA/DMA32
metadata size exceeding the static buffer (3 KiB / 513 KiB), a failed
HIGH metadata carve, and the final "all buddy allocators not inited"
panic (lines 726-728).  `BuddyAlloc::init_alignment` is assumed to
succeed when its metadata buffer is large enough, per its contract. -/
def init_allocators (sizeof_alignment : Nat → Nat → Nat) (ls : RegionLists) :
    Option (RegionLists × ZonesInited) :=
  let isaStep : Option Bool :=
    if ls.isa.isEmpty then some false
    else if sizeof_alignment (rangeSizeOf ls.isa) PAGE_SIZE ≤ 3 * 1024 then some true
    else none
  let dma32Step : Option Bool :=
    if ls.dma32.isEmpty then some false
    else if sizeof_alignment (rangeSizeOf ls.dma32) PAGE_SIZE ≤ 513 * 1024 then some true
    else none
  match isaStep, dma32Step with
  | some isaB, some dmaB =>
    if ls.high.isEmpty then
      if isaB || dmaB then some (ls, ⟨isaB, dmaB, false⟩) else none
    else
      let metadata_size :=
        alignUp (sizeof_alignment (rangeSizeOf ls.high) PAGE_SIZE) PAGE_SIZE
      match carveHighMetadata metadata_size ls.dma32 ls.all with
      | none => none
      | some (_, dma32', all') =>
        some ({ ls with dma32 := dma32', all := all' }, ⟨isaB, dmaB, true⟩)
  | _, _ => none

/-- Rust `is_sorted_by_key` over `Nat` keys: adjacent pairs are `≤`. -/
def natKeysSorted : List Nat → Bool
  | [] => true
  | [_] => true
  | a :: b :: rest => a ≤ b && natKeysSorted (b :: rest)

/-- Rust `is_sorted_by_key` over `bool` keys (`false < true`). -/
def boolKeysSorted : List Bool → Bool
  | [] => true
  | [_] => true
  | a :: b :: rest => (!a || b) && boolKeysSorted (b :: rest)

/-- The `is_sorted_by_key` asserts of `init` for one region list
(first pages sorted, last pages sorted, and the - bool-valued -
`size() >= PAGE_SIZE` keys sorted, translated verbatim). -/
def listChecks (l : List UsableRegion) : Bool :=
  natKeysSorted (l.map UsableRegion.first_page) &&
  natKeysSorted (l.map UsableRegion.last_page) &&
  boolKeysSorted (l.map fun v => decide (PAGE_SIZE ≤ v.size))

/-- How many zone lists contain `r` verbatim (`init` lines 243-266). -/
def foundTimes (r : UsableRegion) (ls : RegionLists) : Nat :=
  (if ls.isa.any fun v => v = r then 1 else 0) +
  (if ls.dma32.any fun v => v = r then 1 else 0) +
  (if ls.high.any fun v => v = r then 1 else 0)

/-- The consistency asserts at the end of `init` (lines 182-267): all four
lists pass `listChecks`, the ALL-list length equals the sum of the zone
list lengths, and every ALL region is found verbatim in exactly one zone
list. -/
def initChecks (ls : RegionLists) : Bool :=
  listChecks ls.all && listChecks ls.isa && listChecks ls.dma32 &&
  listChecks ls.high &&
  (ls.all.length = ls.isa.length + ls.dma32.length + ls.high.length) &&
  ls.all.all fun r => foundTimes r ls = 1

/-- `pmm::init` (lines 177-290): collect regions, carve the SlabInfo
pointer array, initialize the zone allocators, then run the consistency
asserts.  `none` is a fatal initialization failure (panic). -/
def pmmInit (sizeof_alignment : Nat → Nat → Nat)
    (memory_regions : List MemoryRegion) : Option (RegionLists × ZonesInited) :=
  let ls := collect_usable_regions memory_regions
  match init_slab_info_ptrs_array ls with
  | none => none
  | some (_, ls') =>
    match init_allocators sizeof_alignment ls' with
    | none => none
    | some (ls'', zi) => if initChecks ls'' then some (ls'', zi) else none

/-- `PHYSICAL_MEMORY_MAPPING_OFFSET` from `virtual_memory_manager.rs`
(= `0xFFFF_A000_0000_0000`). -/
def PHYSICAL_MEMORY_MAPPING_OFFSET : Nat := 0xFFFFA00000000000

/-- `2^64`, the modulus of the `u64` arithmetic of the translation
helpers. -/
def U64_MOD : Nat := 18446744073709551616

/-- `phys_addr_to_cpmm_virt_addr` (lines 40-42): add the CPMM offset
(`u64` addition). -/
def phys_addr_to_cpmm_virt_addr (phys_addr : Nat) : Nat :=
  (phys_addr + PHYSICAL_MEMORY_MAPPING_OFFSET) % U64_MOD

/-- `virt_addr_from_cpmm_to_phys_addr` (lines 48-50): subtract the CPMM
offset (`u64` subtraction, wrapping). -/
def virt_addr_from_cpmm_to_phys_addr (virt_addr : Nat) : Nat :=
  (virt_addr + (U64_MOD - PHYSICAL_MEMORY_MAPPING_OFFSET)) % U64_MOD

/-- The array index computed by `save_slab_info_ptr` /
`get_slab_info_ptr` (`slab_allocator.rs` lines 325-358): translate the
object's CPMM virtual page address back to its physical address and
divide by the page size.  No base offset is subtracted. -/
def save_slab_info_ptr_index (object_page_addr : Nat) : Nat :=
  virt_addr_from_cpmm_to_phys_addr object_page_addr / PAGE_SIZE

/-- `MemoryZoneEnum` from `physical_memory_manager.rs`. -/
inductive MemoryZoneEnum where
  | IsaDma
  | Dma32
  | High
deriving DecidableEq

/-- Lower bound of a zone's physical range. -/
def zoneMinFirstPage : MemoryZoneEnum → Nat
  | .IsaDma => ISA_DMA_ZONE_MIN_FIRST_PAGE_ADDR
  | .Dma32 => DMA32_MIN_FIRST_PAGE_ADDR
  | .High => HIGH_ZONE_MIN_FIRST_PAGE_ADDR

/-- Upper bound (last page) of a zone's physical range. -/
def zoneMaxLastPage : MemoryZoneEnum → Nat
  | .IsaDma => ISA_DMA_ZONE_MAX_LAST_PAGE_ADDR
  | .Dma32 => DMA32_MAX_LAST_PAGE_ADDR
  | .High => HIGH_ZONE_MAX_LAST_PAGE_ADDR

/-- A zone's buddy allocator as seen by `pmm::alloc`: only its `malloc`
entry point matters, which returns a physical address or 0 (null) on
exhaustion (external `buddy_alloc` crate). -/
structure MemoryZone where
  malloc : Nat → Nat

/-- `pmm::alloc` (lines 742-777): walk the caller's priority list, skip
zones whose `Once` was never initialized (`none`), return the first
non-null `malloc` result, and null (0) when every attempt fails. -/
def pmm_alloc (zones : MemoryZoneEnum → Option MemoryZone) :
    List MemoryZoneEnum → Nat → Nat
  | [], _ => 0
  | z :: rest, requested_size =>
    match zones z with
    | none => pmm_alloc zones rest requested_size
    | some mz =>
      let allocated_ptr := mz.malloc requested_size
      if allocated_ptr ≠ 0 then allocated_ptr
      else pmm_alloc zones rest requested_size

/-- Spec-side restatement of the `alloc` contract ("tries zones in
caller-given order, skipping any zone never initialized, returns the
first successful allocation"), used as the refinement target for
`pmm_alloc`. -/
def specFirstSuccess (zones : MemoryZoneEnum → Option MemoryZone)
    (prio : List MemoryZoneEnum) (requested_size : Nat) : Option Nat :=
  prio.findSome? fun z =>
    (zones z).bind fun mz =>
      if mz.malloc requested_size ≠ 0 then some (mz.malloc requested_size)
      else none

/-- Modelled from the spec: the free-byte accounting of the external
`buddy_alloc` crate's allocator (its code is not part of this
repository).  Per the spec, `reserve_range` over the whole arena "marks
the whole arena span as allocated (simulating full exhaustion)" and
`release_range` "marks a sub-range as free".  The state tracked here is
the set of free page addresses; a freshly initialized and fully reserved
arena has no free pages. -/
def buddyReserveAll : Finset Nat := ∅

/-- Modelled from the spec: `release_range(addr, size)` frees the
`size / PAGE_SIZE` pages starting at `addr`. -/
def buddyReleaseRange (free : Finset Nat) (addr byte_size : Nat) : Finset Nat :=
  free ∪ (Finset.range (byte_size / PAGE_SIZE)).image fun i => addr + i * PAGE_SIZE

/-- Modelled from the spec: `arena_free_size` reports the number of free
bytes. -/
def buddyArenaFreeSize (free : Finset Nat) : Nat := free.card * PAGE_SIZE

/-- Steps 5-6 of `init_allocators` for one zone (e.g. lines 554-573 for
ISA-DMA): reserve the whole arena, then release every usable region of
the zone in list order. -/
def zoneBootstrapFree (regions : List UsableRegion) : Finset Nat :=
  regions.foldl (fun free r => buddyReleaseRange free r.first_page r.size)
    buddyReserveAll

/-- `core::alloc::Layout`: size and alignment of an allocation request. -/
structure Layout where
  size : Nat
  align : Nat
deriving DecidableEq

/-- Result of `GeneralPurposeAllocator::allocate`:
`contractViolation` models the `panic!` on a zero alignment,
`allocError` the `Err(AllocError)` return, and `ok ptr len` the
`Ok(NonNull<[u8]>)` slice. -/
inductive AllocateResult where
  | contractViolation
  | allocError
  | ok (ptr : Nat) (len : Nat)
deriving DecidableEq

/-- `GeneralPurposeAllocator::allocate`
(`general_purpose_allocator.rs` lines 120-145), parameterized by the
global dlmalloc instance's `malloc(size, align)` (external `dlmalloc`
crate), which returns an address or 0 (null): zero alignment panics;
zero size returns the dangling pointer `layout.align()` without
consulting dlmalloc; everything else is forwarded to dlmalloc. -/
def GeneralPurposeAllocator_allocate (dlmalloc_malloc : Nat → Nat → Nat)
    (layout : Layout) : AllocateResult :=
  if layout.align = 0 then .contractViolation
  else if layout.size = 0 then .ok layout.align 0
  else
    let allocated_ptr := dlmalloc_malloc layout.size layout.align
    if allocated_ptr = 0 then .allocError
    else .ok allocated_ptr layout.size


/-- Page `p` is covered by one of the regions of list `l`. -/
def coveredBy (l : List UsableRegion) (p : Nat) : Prop :=
  ∃ r ∈ l, r.first_page ≤ p ∧ p ≤ r.last_page

/-- A boot memory-map entry `[start, stop)` overlaps the physical range
covered by the three zones (which tile `[0x100000, 0xFFFFFFF000 +
PAGE_SIZE)` contiguously). -/
def overlapsSomeZone (m : MemoryRegion) : Prop :=
  m.start < HIGH_ZONE_MAX_LAST_PAGE_ADDR + PAGE_SIZE ∧
  ISA_DMA_ZONE_MIN_FIRST_PAGE_ADDR < m.stop

/-- Zones used in the C2 witness: ISA-DMA initialized but exhausted,
DMA32 with free memory at `0x1000000`, HIGH never initialized. -/
def c2Zones : MemoryZoneEnum → Option MemoryZone
  | .IsaDma => some ⟨fun _ => 0⟩
  | .Dma32 => some ⟨fun _ => 0x1000000⟩
  | .High => none

/-- Membership is preserved by `insertByFirstPage`. -/
theorem mem_insertByFirstPage {r a : UsableRegion} {l : List UsableRegion} :
    a ∈ insertByFirstPage r l ↔ a = r ∨ a ∈ l := by
  induction l with
  | nil => simp [insertByFirstPage]
  | cons x xs ih =>
    simp only [insertByFirstPage]
    split
    · simp [List.mem_cons]
    · simp only [List.mem_cons, ih]
      tauto

/-- Membership is preserved by the sort of the ALL list. -/
theorem mem_sortByFirstPage {a : UsableRegion} {l : List UsableRegion} :
    a ∈ sortByFirstPage l ↔ a ∈ l := by
  induction l with
  | nil => simp [sortByFirstPage]
  | cons x xs ih => simp [sortByFirstPage, mem_insertByFirstPage, ih]

/-- Everything `collectOne` keeps lies inside the zoned physical range, is
page-aligned, and spans at least two pages. -/
theorem collectOne_some {m : MemoryRegion} {r : UsableRegion}
    (h : collectOne m = some r) :
    ISA_DMA_ZONE_MIN_FIRST_PAGE_ADDR ≤ r.first_page ∧
    r.last_page ≤ HIGH_ZONE_MAX_LAST_PAGE_ADDR ∧
    r.first_page % PAGE_SIZE = 0 ∧ r.last_page % PAGE_SIZE = 0 ∧
    r.first_page + PAGE_SIZE ≤ r.last_page := by
  unfold collectOne at h
  split at h
  · exact absurd h (by simp)
  split at h
  · exact absurd h (by simp)
  dsimp only at h
  split at h
  · exact absurd h (by simp)
  split at h
  · exact absurd h (by simp)
  injection h with h
  subst h
  rename_i hzone hle hspan
  push_neg at hzone
  unfold alignUp alignDown ISA_DMA_ZONE_MIN_FIRST_PAGE_ADDR
    HIGH_ZONE_MAX_LAST_PAGE_ADDR PAGE_SIZE at *
  dsimp only at *
  omega

/-- Every region of the collected ALL list lies inside the zoned physical
range, is page-aligned and spans at least two pages. -/
theorem mem_all_collect {ms : List MemoryRegion} {r : UsableRegion}
    (hr : r ∈ (collect_usable_regions ms).all) :
    ISA_DMA_ZONE_MIN_FIRST_PAGE_ADDR ≤ r.first_page ∧
    r.last_page ≤ HIGH_ZONE_MAX_LAST_PAGE_ADDR ∧
    r.first_page % PAGE_SIZE = 0 ∧ r.last_page % PAGE_SIZE = 0 ∧
    r.first_page + PAGE_SIZE ≤ r.last_page := by
  have hr' : r ∈ ms.filterMap collectOne := by
    simpa [collect_usable_regions, mem_sortByFirstPage] using hr
  obtain ⟨m, _, hm⟩ := List.mem_filterMap.mp hr'
  exact collectOne_some hm

/-- C10: every region produced by region collection spans at least two
pages - a usable entry whose aligned span holds fewer than two full pages
is discarded by `collect_usable_regions`, so a one-page region never
appears in any list, even though `UsableRegion::size`'s inclusive formula
would represent one (`size ⟨a, a⟩ = PAGE_SIZE`). -/
theorem collected_regions_span_two_pages (ms : List MemoryRegion)
    (r : UsableRegion) (hr : r ∈ (collect_usable_regions ms).all) :
    r.first_page + PAGE_SIZE ≤ r.last_page ∧
    2 * PAGE_SIZE ≤ r.size ∧
    (UsableRegion.mk r.first_page r.first_page).size = PAGE_SIZE := by
  have h := mem_all_collect hr
  simp only [UsableRegion.size, PAGE_SIZE] at *
  omega

/-- Witness for C10 at a concrete memory map. -/
theorem collected_regions_span_two_pages_witness :
    (⟨0x100000, 0x1FF000⟩ : UsableRegion) ∈
      (collect_usable_regions [⟨0x100000, 0x200000, MemoryRegionKind.Usable⟩]).all ∧
    0x100000 + PAGE_SIZE ≤ 0x1FF000 ∧
    2 * PAGE_SIZE ≤ (UsableRegion.mk 0x100000 0x1FF000).size :=
  ⟨by decide,
   (collected_regions_span_two_pages [⟨0x100000, 0x200000, MemoryRegionKind.Usable⟩]
     ⟨0x100000, 0x1FF000⟩ (by decide)).1,
   (collected_regions_span_two_pages [⟨0x100000, 0x200000, MemoryRegionKind.Usable⟩]
     ⟨0x100000, 0x1FF000⟩ (by decide)).2.1⟩

/-- C9: the CPMM translation is the pure function
`p + PHYSICAL_MEMORY_MAPPING_OFFSET`, and the two directions are mutual
inverses on the 1 TB physical range and its CPMM mirror. -/
theorem cpmm_translation_inverses (p v : Nat)
    (hp : p < 2 ^ 40)
    (hv1 : PHYSICAL_MEMORY_MAPPING_OFFSET ≤ v)
    (hv2 : v < PHYSICAL_MEMORY_MAPPING_OFFSET + 2 ^ 40) :
    phys_addr_to_cpmm_virt_addr p = p + PHYSICAL_MEMORY_MAPPING_OFFSET ∧
    virt_addr_from_cpmm_to_phys_addr (phys_addr_to_cpmm_virt_addr p) = p ∧
    phys_addr_to_cpmm_virt_addr (virt_addr_from_cpmm_to_phys_addr v) = v := by
  have hpow : (2 : Nat) ^ 40 = 1099511627776 := by norm_num
  unfold phys_addr_to_cpmm_virt_addr virt_addr_from_cpmm_to_phys_addr
    PHYSICAL_MEMORY_MAPPING_OFFSET U64_MOD at *
  omega

/-- Witness for C9 at concrete addresses. -/
theorem cpmm_translation_inverses_witness :
    virt_addr_from_cpmm_to_phys_addr (phys_addr_to_cpmm_virt_addr 0x1000) = 0x1000 ∧
    phys_addr_to_cpmm_virt_addr
      (virt_addr_from_cpmm_to_phys_addr 0xFFFFA00000005000) = 0xFFFFA00000005000 :=
  ⟨(cpmm_translation_inverses 0x1000 0xFFFFA00000005000 (by norm_num)
      (by norm_num [PHYSICAL_MEMORY_MAPPING_OFFSET])
      (by norm_num [PHYSICAL_MEMORY_MAPPING_OFFSET])).2.1,
   (cpmm_translation_inverses 0x1000 0xFFFFA00000005000 (by norm_num)
      (by norm_num [PHYSICAL_MEMORY_MAPPING_OFFSET])
      (by norm_num [PHYSICAL_MEMORY_MAPPING_OFFSET])).2.2⟩

/-- C7: `GeneralPurposeAllocator::allocate` panics on zero alignment,
answers zero-size requests with the dangling pointer `layout.align`
without consulting the dlmalloc instance (the result is independent of
it), and forwards every nonzero-size request to dlmalloc. -/
theorem general_purpose_allocate_contract (layout : Layout)
    (dl dl' : Nat → Nat → Nat) :
    (layout.align = 0 →
      GeneralPurposeAllocator_allocate dl layout = .contractViolation) ∧
    (layout.align ≠ 0 → layout.size = 0 →
      GeneralPurposeAllocator_allocate dl layout = .ok layout.align 0 ∧
      layout.align ≠ 0 ∧ layout.align % layout.align = 0 ∧
      GeneralPurposeAllocator_allocate dl layout =
        GeneralPurposeAllocator_allocate dl' layout) ∧
    (layout.align ≠ 0 → layout.size ≠ 0 →
      GeneralPurposeAllocator_allocate dl layout =
        (if dl layout.size layout.align = 0 then .allocError
         else .ok (dl layout.size layout.align) layout.size)) := by
  unfold GeneralPurposeAllocator_allocate
  refine ⟨fun h => by simp [h], fun h1 h2 => ?_, fun h1 h2 => by simp [h1, h2]⟩
  simp [h1, h2, Nat.mod_self]

/-- Witness for C7: a zero-size request with alignment 8 yields the
dangling pointer 8 regardless of the dlmalloc instance. -/
theorem general_purpose_allocate_contract_witness :
    GeneralPurposeAllocator_allocate (fun _ _ => 0) ⟨0, 8⟩ = .ok 8 0 ∧
    GeneralPurposeAllocator_allocate (fun _ _ => 0) ⟨0, 8⟩ =
      GeneralPurposeAllocator_allocate (fun _ _ => 12345) ⟨0, 8⟩ :=
  ⟨((general_purpose_allocate_contract ⟨0, 8⟩ (fun _ _ => 0)
      (fun _ _ => 12345)).2.1 (by decide) rfl).1,
   ((general_purpose_allocate_contract ⟨0, 8⟩ (fun _ _ => 0)
      (fun _ _ => 12345)).2.1 (by decide) rfl).2.2.2⟩


/-- C4 counterexample: the usable entry `[0xFF000, 0x200000)` starts below
the ISA-DMA floor `0x100000` and extends well above it, yet
`collect_usable_regions` discards it outright - no clipped remainder
`[0x100000, 0x1FF000]` (or any region at all) appears in any list,
refuting "clips the entry at the floor and keeps the part above". -/
theorem collector_floor_counterexample :
    0xFF000 < ISA_DMA_ZONE_MIN_FIRST_PAGE_ADDR ∧
    ISA_DMA_ZONE_MIN_FIRST_PAGE_ADDR < 0x200000 ∧
    collect_usable_regions [⟨0xFF000, 0x200000, MemoryRegionKind.Usable⟩] =
      ⟨[], [], [], []⟩ := by
  refine ⟨by decide, by decide, ?_⟩
  decide

/-- C4 (amended): the collector discards outright any usable entry that
starts below the ISA-DMA floor (even one extending above the floor) and
likewise any entry ending above the HIGH ceiling; no clipping at the
floor is performed. -/
theorem collector_discards_entries_below_floor (m : MemoryRegion)
    (hk : m.kind = MemoryRegionKind.Usable) :
    (m.start < ISA_DMA_ZONE_MIN_FIRST_PAGE_ADDR → collectOne m = none) ∧
    (m.stop > HIGH_ZONE_MAX_LAST_PAGE_ADDR → collectOne m = none) := by
  unfold collectOne
  constructor <;> intro h <;> simp [hk, h]

/-- Witness for the amended C4 at the counterexample entry. -/
theorem collector_discards_entries_below_floor_witness :
    collectOne ⟨0xFF000, 0x200000, MemoryRegionKind.Usable⟩ = none :=
  (collector_discards_entries_below_floor
    ⟨0xFF000, 0x200000, MemoryRegionKind.Usable⟩ rfl).1 (by decide)

/-- C5: with the boot map `[0x100000, 0x200000)` the collected usable
range is `[0x100000, 0x1FF000]` and `init_slab_info_ptrs_array` sizes the
SlabInfo pointer array at 256 slots (one per page of the usable span),
but `save_slab_info_ptr` indexes it with the absolute physical page
number: for the last usable page `0x1FF000` (a page inside the
originally-collected usable range) the computed index is 511, which is
out of bounds for the 256-slot array. -/
theorem slab_info_index_out_of_bounds :
    (collect_usable_regions [⟨0x100000, 0x200000, MemoryRegionKind.Usable⟩]).all =
      [⟨0x100000, 0x1FF000⟩] ∧
    (init_slab_info_ptrs_array
      (collect_usable_regions [⟨0x100000, 0x200000, MemoryRegionKind.Usable⟩])).map
        Prod.fst = some 256 ∧
    numberOfSlabInfos 0x100000 0x1FF000 = 256 ∧
    save_slab_info_ptr_index (phys_addr_to_cpmm_virt_addr 0x1FF000) = 511 ∧
    0x100000 ≤ 0x1FF000 ∧ 0x1FF000 ≤ 0x1FF000 ∧ (256 : Nat) ≤ 511 := by
  refine ⟨by decide, by decide, by decide, ?_, by decide, by decide, by decide⟩
  decide

/-- C2: `pmm::alloc` equals the spec-side "first successful allocation in
caller order, skipping uninitialized zones"; it returns null exactly when
every listed zone is uninitialized or exhausted; and - given the buddy
allocators' contract that `malloc` returns null or a page-aligned address
inside the zone's range - a non-null result is page-aligned and comes
from the range of one of the listed zones. -/
theorem pmm_alloc_priority_contract (zones : MemoryZoneEnum → Option MemoryZone)
    (prio : List MemoryZoneEnum) (requested_size : Nat)
    (hsize : PAGE_SIZE ≤ requested_size ∧ ∃ k, requested_size = 2 ^ k)
    (hcontract : ∀ z mz, zones z = some mz →
      mz.malloc requested_size = 0 ∨
      (mz.malloc requested_size % PAGE_SIZE = 0 ∧
       zoneMinFirstPage z ≤ mz.malloc requested_size ∧
       mz.malloc requested_size ≤ zoneMaxLastPage z)) :
    pmm_alloc zones prio requested_size =
      (specFirstSuccess zones prio requested_size).getD 0 ∧
    (pmm_alloc zones prio requested_size = 0 ↔
      ∀ z ∈ prio, zones z = none ∨
        ∃ mz, zones z = some mz ∧ mz.malloc requested_size = 0) ∧
    (pmm_alloc zones prio requested_size ≠ 0 →
      pmm_alloc zones prio requested_size % PAGE_SIZE = 0 ∧
      ∃ z ∈ prio, ∃ mz, zones z = some mz ∧
        pmm_alloc zones prio requested_size = mz.malloc requested_size ∧
        zoneMinFirstPage z ≤ pmm_alloc zones prio requested_size ∧
        pmm_alloc zones prio requested_size ≤ zoneMaxLastPage z) := by
  induction prio with
  | nil => simp [pmm_alloc, specFirstSuccess]
  | cons z rest ih =>
    obtain ⟨ih1, ih2, ih3⟩ := ih
    cases hz : zones z with
    | none =>
      refine ⟨?_, ?_, ?_⟩
      · simpa [pmm_alloc, specFirstSuccess, hz] using ih1
      · simp only [pmm_alloc, hz]
        rw [ih2]
        simp [hz]
      · intro hne
        simp only [pmm_alloc, hz] at hne
        obtain ⟨hal, z', hz', mz, h1, h2, h3, h4⟩ := ih3 hne
        exact ⟨by simpa [pmm_alloc, hz] using hal,
          z', List.mem_cons_of_mem _ hz', mz, h1,
          by simpa [pmm_alloc, hz] using h2,
          by simpa [pmm_alloc, hz] using h3,
          by simpa [pmm_alloc, hz] using h4⟩
    | some mz =>
      by_cases ha : mz.malloc requested_size = 0
      · refine ⟨?_, ?_, ?_⟩
        · simpa [pmm_alloc, specFirstSuccess, hz, ha] using ih1
        · simp only [pmm_alloc, hz, ha]
          simp only [ne_eq, not_true_eq_false, if_false, ih2]
          constructor
          · intro h
            intro z' hz'
            rcases List.mem_cons.mp hz' with h' | h'
            · subst h'
              exact Or.inr ⟨mz, hz, ha⟩
            · exact h z' h'
          · intro h z' hz'
            exact h z' (List.mem_cons_of_mem _ hz')
        · intro hne
          simp only [pmm_alloc, hz, ha, ne_eq, not_true_eq_false, if_false] at hne ⊢
          obtain ⟨hal, z', hz', mz', h1, h2, h3, h4⟩ := ih3 hne
          exact ⟨hal, z', List.mem_cons_of_mem _ hz', mz', h1, h2, h3, h4⟩
      · have hres : pmm_alloc zones (z :: rest) requested_size
            = mz.malloc requested_size := by
          simp [pmm_alloc, hz, ha]
        refine ⟨?_, ?_, ?_⟩
        · simp [hres, specFirstSuccess, hz, ha]
        · rw [hres]
          constructor
          · intro h
            exact absurd h ha
          · intro h
            rcases h z (List.mem_cons_self _ _) with h' | ⟨mz', h1, h2⟩
            · rw [hz] at h'
              cases h'
            · rw [hz] at h1
              injection h1 with h1
              subst h1
              exact h2
        · intro _
          rcases hcontract z mz hz with h | ⟨h1, h2, h3⟩
          · exact absurd h ha
          · exact ⟨by rw [hres]; exact h1, z, List.mem_cons_self _ _, mz, hz,
              hres, by rw [hres]; exact h2, by rw [hres]; exact h3⟩


/-- Witness for C2: with priority `[IsaDma, Dma32]`, ISA-DMA exhausted and
DMA32 backed, `alloc` returns a non-null page-aligned address in DMA32's
range. -/
theorem pmm_alloc_priority_contract_witness :
    pmm_alloc c2Zones [.IsaDma, .Dma32] 4096 ≠ 0 ∧
    pmm_alloc c2Zones [.IsaDma, .Dma32] 4096 % PAGE_SIZE = 0 ∧
    DMA32_MIN_FIRST_PAGE_ADDR ≤ pmm_alloc c2Zones [.IsaDma, .Dma32] 4096 ∧
    pmm_alloc c2Zones [.IsaDma, .Dma32] 4096 ≤ DMA32_MAX_LAST_PAGE_ADDR := by
  have hcontract : ∀ z mz, c2Zones z = some mz →
      mz.malloc 4096 = 0 ∨
      (mz.malloc 4096 % PAGE_SIZE = 0 ∧
       zoneMinFirstPage z ≤ mz.malloc 4096 ∧
       mz.malloc 4096 ≤ zoneMaxLastPage z) := by
    intro z mz hz
    cases z
    · injection hz with hz
      subst hz
      exact Or.inl rfl
    · injection hz with hz
      subst hz
      right
      refine ⟨by decide, by decide, by decide⟩
    · cases hz
  have h := pmm_alloc_priority_contract c2Zones [.IsaDma, .Dma32] 4096
    ⟨by decide, 12, by decide⟩ hcontract
  have hne : pmm_alloc c2Zones [.IsaDma, .Dma32] 4096 = 0x1000000 := rfl
  obtain ⟨hal, z, hzmem, mz, h1, h2, h3, h4⟩ := h.2.2 (by rw [hne]; decide)
  refine ⟨by rw [hne]; decide, hal, ?_, ?_⟩
  · rcases List.mem_cons.mp hzmem with hzz | hzz
    · subst hzz
      injection h1 with h1
      rw [← h1] at h2
      rw [hne] at h2
      cases h2
    · rcases List.mem_cons.mp hzz with hzz' | hzz'
      · subst hzz'
        simpa [zoneMinFirstPage] using h3
      · cases hzz'
  · rcases List.mem_cons.mp hzmem with hzz | hzz
    · subst hzz
      injection h1 with h1
      rw [← h1] at h2
      rw [hne] at h2
      cases h2
    · rcases List.mem_cons.mp hzz with hzz' | hzz'
      · subst hzz'
        simpa [zoneMaxLastPage] using h4
      · cases hzz'

/-- Elements added by `buddyReleaseRange` are the old free pages plus the
pages of the released range. -/
theorem mem_buddyReleaseRange {free : Finset Nat} {addr byte_size a : Nat}
    (h : a ∈ buddyReleaseRange free addr byte_size) :
    a ∈ free ∨ ∃ i, i < byte_size / PAGE_SIZE ∧ a = addr + i * PAGE_SIZE := by
  simp only [buddyReleaseRange, Finset.mem_union, Finset.mem_image,
    Finset.mem_range] at h
  rcases h with h | ⟨i, hi, hia⟩
  · exact Or.inl h
  · exact Or.inr ⟨i, hi, hia.symm⟩

/-- Releasing a range disjoint from (strictly above) the current free set
adds exactly `byte_size / PAGE_SIZE` free pages. -/
theorem buddyReleaseRange_card (free : Finset Nat) (addr byte_size : Nat)
    (hlt : ∀ a ∈ free, a < addr) :
    (buddyReleaseRange free addr byte_size).card =
      free.card + byte_size / PAGE_SIZE := by
  unfold buddyReleaseRange
  rw [Finset.card_union_of_disjoint, Finset.card_image_of_injOn, Finset.card_range]
  · intro i hi j hj hij
    simp only [PAGE_SIZE] at hij
    omega
  · rw [Finset.disjoint_left]
    intro a ha hb
    obtain ⟨i, _, hia⟩ := Finset.mem_image.mp hb
    have := hlt a ha
    omega

/-- Free-page count of the reserve-all-then-release-each bootstrap, with
an arbitrary starting free set lying strictly below all regions. -/
theorem zoneBootstrapFree_card_aux (regions : List UsableRegion)
    (free : Finset Nat)
    (hsorted : regions.Pairwise fun a b => a.last_page + PAGE_SIZE ≤ b.first_page)
    (halign : ∀ r ∈ regions, r.first_page % PAGE_SIZE = 0 ∧
      r.last_page % PAGE_SIZE = 0 ∧ r.first_page ≤ r.last_page)
    (hfree : ∀ a ∈ free, ∀ r ∈ regions, a < r.first_page) :
    (regions.foldl (fun fr r => buddyReleaseRange fr r.first_page r.size)
      free).card = free.card + (regions.map fun r => r.size / PAGE_SIZE).sum := by
  induction regions generalizing free with
  | nil => simp
  | cons r rest ih =>
    simp only [List.foldl_cons, List.map_cons, List.sum_cons]
    obtain ⟨hpair, hsorted'⟩ := List.pairwise_cons.mp hsorted
    have halr := halign r (List.mem_cons_self _ _)
    rw [ih (buddyReleaseRange free r.first_page r.size) hsorted'
      (fun x hx => halign x (List.mem_cons_of_mem _ hx)) ?_]
    · rw [buddyReleaseRange_card free r.first_page r.size
        (fun a ha => hfree a ha r (List.mem_cons_self _ _))]
      omega
    · intro a ha r' hr'
      rcases mem_buddyReleaseRange ha with h | ⟨i, hi, hia⟩
      · exact hfree a h r' (List.mem_cons_of_mem _ hr')
      · have hp := hpair r' hr'
        subst hia
        unfold UsableRegion.size PAGE_SIZE at *
        omega

/-- For page-aligned regions the page count times the page size recovers
the byte size. -/
theorem sum_sizes_mul (regions : List UsableRegion)
    (halign : ∀ r ∈ regions, r.first_page % PAGE_SIZE = 0 ∧
      r.last_page % PAGE_SIZE = 0 ∧ r.first_page ≤ r.last_page) :
    (regions.map fun r => r.size / PAGE_SIZE).sum * PAGE_SIZE =
      (regions.map UsableRegion.size).sum := by
  induction regions with
  | nil => simp
  | cons r rest ih =>
    simp only [List.map_cons, List.sum_cons, Nat.add_mul]
    rw [ih fun x hx => halign x (List.mem_cons_of_mem _ hx)]
    have h := halign r (List.mem_cons_self _ _)
    have hs : r.size / PAGE_SIZE * PAGE_SIZE = r.size := by
      unfold UsableRegion.size PAGE_SIZE at *
      omega
    rw [hs]

/-- C3: after a zone's bootstrap (reserve the whole arena, then release
each usable region of the zone), the buddy allocator's free byte count
equals the sum of the sizes of the zone's usable regions - every byte
accounted, none double counted, none omitted.  The regions are required
to be sorted and non-overlapping and page-aligned, which the collector
guarantees for non-overlapping boot maps. -/
theorem zone_free_bytes_after_init (regions : List UsableRegion)
    (hsorted : regions.Pairwise fun a b => a.last_page + PAGE_SIZE ≤ b.first_page)
    (halign : ∀ r ∈ regions, r.first_page % PAGE_SIZE = 0 ∧
      r.last_page % PAGE_SIZE = 0 ∧ r.first_page ≤ r.last_page) :
    buddyArenaFreeSize (zoneBootstrapFree regions) =
      (regions.map UsableRegion.size).sum := by
  unfold buddyArenaFreeSize zoneBootstrapFree
  rw [zoneBootstrapFree_card_aux regions buddyReserveAll hsorted halign
    (by simp [buddyReserveAll])]
  simp only [buddyReserveAll, Finset.card_empty, Nat.zero_add]
  exact sum_sizes_mul regions halign

/-- Witness for C3: two disjoint ISA-DMA regions of 2 and 3 pages give
exactly `0x5000` free bytes. -/
theorem zone_free_bytes_after_init_witness :
    buddyArenaFreeSize
      (zoneBootstrapFree [⟨0x100000, 0x101000⟩, ⟨0x103000, 0x105000⟩]) =
      0x5000 :=
  (zone_free_bytes_after_init [⟨0x100000, 0x101000⟩, ⟨0x103000, 0x105000⟩]
    (by decide) (by decide)).trans (by decide)

/-- When the list's `first_page`s are pairwise distinct, advancing the
first match is the same as advancing every match: exactly the region
carrying `oldFirst` is advanced, everything else is untouched. -/
theorem advanceFirstMatching_eq_map (oldFirst newFirst : Nat)
    (l : List UsableRegion)
    (hnodup : (l.map UsableRegion.first_page).Nodup) :
    advanceFirstMatching oldFirst newFirst l =
      l.map fun v =>
        if v.first_page = oldFirst then { v with first_page := newFirst }
        else v := by
  induction l with
  | nil => rfl
  | cons x xs ih =>
    simp only [List.map_cons, List.nodup_cons] at hnodup
    obtain ⟨hx, hxs⟩ := hnodup
    simp only [advanceFirstMatching, List.map_cons]
    by_cases hfx : x.first_page = oldFirst
    · rw [if_pos hfx, if_pos hfx]
      congr 1
      have : ∀ v ∈ xs, (if v.first_page = oldFirst
          then ({ v with first_page := newFirst } : UsableRegion)
          else v) = v := by
        intro v hv
        rw [if_neg]
        intro hc
        exact hx (by rw [hfx, ← hc]; exact List.mem_map_of_mem _ hv)
      rw [List.map_congr_left this]
      simp
    · rw [if_neg hfx, if_neg hfx, ih hxs]

/-- C6: a successful HIGH-zone metadata carve takes the first DMA32
region large enough (`metadata_size + PAGE_SIZE ≤ size`), advances its
`first_page` by exactly `metadata_size` with its `last_page` and every
other DMA32 region unchanged, and mirrors exactly the same advance into
the ALL list (regions whose `first_page` differs from the donor's are
untouched there). -/
theorem high_metadata_carve_consistent (metadata_size : Nat)
    (dma32 all : List UsableRegion) (addr : Nat)
    (dma32' all' : List UsableRegion)
    (hcarve : carveHighMetadata metadata_size dma32 all =
      some (addr, dma32', all'))
    (hnodup : (all.map UsableRegion.first_page).Nodup) :
    (∃ pre donor post,
      dma32 = pre ++ donor :: post ∧
      (∀ r ∈ pre, ¬ (metadata_size + PAGE_SIZE ≤ r.size)) ∧
      metadata_size + PAGE_SIZE ≤ donor.size ∧
      addr = donor.first_page ∧
      dma32' = pre ++
        { donor with first_page := donor.first_page + metadata_size } :: post) ∧
    all' = all.map fun v =>
      if v.first_page = addr then { v with first_page := addr + metadata_size }
      else v := by
  induction dma32 generalizing addr dma32' all' with
  | nil => cases hcarve
  | cons r rest ih =>
    unfold carveHighMetadata at hcarve
    by_cases hfit : metadata_size + PAGE_SIZE ≤ r.size
    · rw [if_pos hfit] at hcarve
      simp only [Option.some.injEq, Prod.mk.injEq] at hcarve
      obtain ⟨h1, h2, h3⟩ := hcarve
      subst h1
      refine ⟨⟨[], r, rest, by simp, by simp, hfit, rfl, h2.symm⟩, ?_⟩
      rw [← h3]
      exact advanceFirstMatching_eq_map _ _ all hnodup
    · rw [if_neg hfit] at hcarve
      rw [Option.map_eq_some'] at hcarve
      obtain ⟨⟨a', d', a''⟩, hrec, heq⟩ := hcarve
      simp only [Prod.mk.injEq] at heq
      obtain ⟨h1, h2, h3⟩ := heq
      subst h1
      subst h3
      obtain ⟨⟨pre, donor, post, hd1, hd2, hd3, hd4, hd5⟩, hall⟩ :=
        ih a' d' a'' hrec
      refine ⟨⟨r :: pre, donor, post, by rw [hd1]; rfl, ?_, hd3, hd4, ?_⟩, hall⟩
      · intro x hx
        rcases List.mem_cons.mp hx with hx' | hx'
        · subst hx'
          exact hfit
        · exact hd2 x hx'
      · rw [← h2, hd5]
        rfl

/-- Witness for C6: carving `0x2000` bytes of HIGH metadata out of the
DMA32 region `[0x1000000, 0x1FFF000]` advances its `first_page` to
`0x1002000` in the DMA32 list and identically in the ALL list, with the
other ALL region untouched. -/
theorem high_metadata_carve_consistent_witness :
    (∃ pre donor post,
      ([⟨0x1000000, 0x1FFF000⟩] : List UsableRegion) = pre ++ donor :: post ∧
      (∀ r ∈ pre, ¬ (0x2000 + PAGE_SIZE ≤ r.size)) ∧
      0x2000 + PAGE_SIZE ≤ donor.size ∧
      (0x1000000 : Nat) = donor.first_page ∧
      ([⟨0x1002000, 0x1FFF000⟩] : List UsableRegion) = pre ++
        { donor with first_page := donor.first_page + 0x2000 } :: post) ∧
    ([⟨0x104000, 0xFFF000⟩, ⟨0x1002000, 0x1FFF000⟩] : List UsableRegion) =
      ([⟨0x104000, 0xFFF000⟩, ⟨0x1000000, 0x1FFF000⟩] : List UsableRegion).map
        fun v => if v.first_page = 0x1000000
          then { v with first_page := 0x1000000 + 0x2000 } else v :=
  high_metadata_carve_consistent 0x2000 [⟨0x1000000, 0x1FFF000⟩]
    [⟨0x104000, 0xFFF000⟩, ⟨0x1000000, 0x1FFF000⟩] 0x1000000
    [⟨0x1002000, 0x1FFF000⟩] [⟨0x104000, 0xFFF000⟩, ⟨0x1002000, 0x1FFF000⟩]
    (by decide) (by decide)


/-- An entry that is not usable, or overlaps no zone, contributes no
region. -/
theorem collectOne_none_of_no_overlap (m : MemoryRegion)
    (h : m.kind = MemoryRegionKind.Usable → ¬ overlapsSomeZone m) :
    collectOne m = none := by
  unfold collectOne
  by_cases hk : m.kind = MemoryRegionKind.Usable
  · have hno := h hk
    unfold overlapsSomeZone at hno
    push_neg at hno
    rw [if_neg (by simp [hk])]
    by_cases hz : m.start < ISA_DMA_ZONE_MIN_FIRST_PAGE_ADDR ∨
        m.stop > HIGH_ZONE_MAX_LAST_PAGE_ADDR
    · rw [if_pos hz]
    · rw [if_neg hz]
      push_neg at hz
      rw [if_pos]
      unfold alignUp alignDown ISA_DMA_ZONE_MIN_FIRST_PAGE_ADDR
        HIGH_ZONE_MAX_LAST_PAGE_ADDR PAGE_SIZE at *
      omega
  · rw [if_pos (by simp [hk])]

/-- C8: a boot memory map with no usable entry overlapping any of the
three zones (in particular an empty map, or one with no usable entries)
makes PMM initialization fail fatally; and whenever `pmm::init` completes
successfully, at least one of the three zones was initialized. -/
theorem pmm_init_fatal_on_no_usable (sizeof_alignment : Nat → Nat → Nat)
    (ms : List MemoryRegion) :
    ((∀ m ∈ ms, m.kind = MemoryRegionKind.Usable → ¬ overlapsSomeZone m) →
      pmmInit sizeof_alignment ms = none) ∧
    (∀ st, pmmInit sizeof_alignment ms = some st →
      st.2.isaDma = true ∨ st.2.dma32 = true ∨ st.2.high = true) := by
  constructor
  · intro h
    have hcol : ms.filterMap collectOne = [] := by
      rw [List.filterMap_eq_nil_iff]
      intro m hm
      exact collectOne_none_of_no_overlap m (h m hm)
    unfold pmmInit
    dsimp only
    have hall : (collect_usable_regions ms).all = [] := by
      simp [collect_usable_regions, hcol, sortByFirstPage]
    rw [show init_slab_info_ptrs_array (collect_usable_regions ms) = none from ?_]
    · unfold init_slab_info_ptrs_array
      rw [hall]
      rfl
  · intro st hst
    unfold pmmInit at hst
    dsimp only at hst
    rcases hsl : init_slab_info_ptrs_array (collect_usable_regions ms) with _ | ⟨n, ls'⟩
    · rw [hsl] at hst
      cases hst
    rw [hsl] at hst
    dsimp only at hst
    rcases hia : init_allocators sizeof_alignment ls' with _ | ⟨ls'', zi⟩
    · rw [hia] at hst
      cases hst
    rw [hia] at hst
    dsimp only at hst
    have hzi : st.2 = zi := by
      by_cases hc : initChecks ls''
      · rw [if_pos hc] at hst
        injection hst with hst
        rw [← hst]
      · rw [if_neg hc] at hst
        cases hst
    rw [hzi]
    unfold init_allocators at hia
    rcases hisa : (if ls'.isa.isEmpty then some false
        else if sizeof_alignment (rangeSizeOf ls'.isa) PAGE_SIZE ≤ 3 * 1024
        then some true else none) with _ | isaB
    · rw [hisa] at hia
      cases hia
    rcases hdma : (if ls'.dma32.isEmpty then some false
        else if sizeof_alignment (rangeSizeOf ls'.dma32) PAGE_SIZE ≤ 513 * 1024
        then some true else none) with _ | dmaB
    · rw [hisa, hdma] at hia
      cases hia
    rw [hisa, hdma] at hia
    dsimp only at hia
    by_cases hhigh : ls'.high.isEmpty
    · rw [if_pos hhigh] at hia
      by_cases hb : isaB || dmaB
      · rw [if_pos hb] at hia
        injection hia with hia
        have : zi = ⟨isaB, dmaB, false⟩ := congrArg Prod.snd hia.symm
        rw [this]
        rcases Bool.or_eq_true_iff.mp hb with h | h
        · exact Or.inl h
        · exact Or.inr (Or.inl h)
      · rw [if_neg hb] at hia
        cases hia
    · rw [if_neg hhigh] at hia
      rcases hcarve : carveHighMetadata
          (alignUp (sizeof_alignment (rangeSizeOf ls'.high) PAGE_SIZE) PAGE_SIZE)
          ls'.dma32 ls'.all with _ | ⟨addr, dma32', all'⟩
      · rw [hcarve] at hia
        cases hia
      · rw [hcarve] at hia
        injection hia with hia
        have : zi = ⟨isaB, dmaB, true⟩ := congrArg Prod.snd hia.symm
        rw [this]
        exact Or.inr (Or.inr rfl)

/-- Witness for C8: an empty memory map fails PMM initialization. -/
theorem pmm_init_fatal_on_no_usable_witness :
    pmmInit (fun _ _ => 0) [] = none :=
  (pmm_init_fatal_on_no_usable (fun _ _ => 0) []).1 (by simp)


/-- The ISA-DMA list is the ALL list clipped to the ISA-DMA bounds. -/
theorem collect_isa_eq (ms : List MemoryRegion) :
    (collect_usable_regions ms).isa =
      (collect_usable_regions ms).all.filterMap fun r =>
        adjust_usable_region r ISA_DMA_ZONE_MIN_FIRST_PAGE_ADDR
          ISA_DMA_ZONE_MAX_LAST_PAGE_ADDR := rfl

/-- The DMA32 list is the ALL list clipped to the DMA32 bounds. -/
theorem collect_dma32_eq (ms : List MemoryRegion) :
    (collect_usable_regions ms).dma32 =
      (collect_usable_regions ms).all.filterMap fun r =>
        adjust_usable_region r DMA32_MIN_FIRST_PAGE_ADDR
          DMA32_MAX_LAST_PAGE_ADDR := rfl

/-- The HIGH list is the ALL list clipped to the HIGH bounds. -/
theorem collect_high_eq (ms : List MemoryRegion) :
    (collect_usable_regions ms).high =
      (collect_usable_regions ms).all.filterMap fun r =>
        adjust_usable_region r HIGH_ZONE_MIN_FIRST_PAGE_ADDR
          HIGH_ZONE_MAX_LAST_PAGE_ADDR := rfl

/-- A region overlapping the zone is clipped to the intersection. -/
theorem adjust_some_of_overlap {r : UsableRegion} {zmin zmax : Nat}
    (h1 : zmin ≤ r.last_page) (h2 : r.first_page ≤ zmax) :
    adjust_usable_region r zmin zmax =
      some ⟨max r.first_page zmin, min r.last_page zmax⟩ := by
  unfold adjust_usable_region
  rw [if_neg (by omega)]
  dsimp only
  have hf : (if r.first_page < zmin then zmin else r.first_page) =
      max r.first_page zmin := by
    split <;> omega
  have hl : (if r.last_page > zmax then zmax else r.last_page) =
      min r.last_page zmax := by
    split <;> omega
  rw [hf, hl]

/-- Everything `adjust_usable_region` yields is the intersection of the
region with the zone bounds. -/
theorem adjust_some_inv {r r' : UsableRegion} {zmin zmax : Nat}
    (h : adjust_usable_region r zmin zmax = some r') :
    r.first_page ≤ r'.first_page ∧ zmin ≤ r'.first_page ∧
    r'.last_page ≤ r.last_page ∧ r'.last_page ≤ zmax ∧
    r'.first_page = max r.first_page zmin ∧
    r'.last_page = min r.last_page zmax := by
  unfold adjust_usable_region at h
  split at h
  · cases h
  · rename_i hg
    push_neg at hg
    dsimp only at h
    injection h with h
    subst h
    refine ⟨?_, ?_, ?_, ?_, ?_, ?_⟩ <;> dsimp only <;> split <;> omega

/-- A page of an ALL region that lies inside a zone's bounds is covered by
that zone's clipped list. -/
theorem coveredBy_zone_list (all : List UsableRegion) (zmin zmax p : Nat)
    (hcov : coveredBy all p) (hz1 : zmin ≤ p) (hz2 : p ≤ zmax) :
    coveredBy (all.filterMap fun r => adjust_usable_region r zmin zmax) p := by
  obtain ⟨r, hr, hc1, hc2⟩ := hcov
  refine ⟨⟨max r.first_page zmin, min r.last_page zmax⟩, ?_, ?_, ?_⟩
  · exact List.mem_filterMap.mpr
      ⟨r, hr, adjust_some_of_overlap (by omega) (by omega)⟩
  · simp only
    omega
  · simp only
    omega

/-- A page covered by a zone's clipped list is covered by the ALL list and
lies inside the zone's bounds. -/
theorem coveredBy_zone_list_inv (all : List UsableRegion) (zmin zmax p : Nat)
    (hcov : coveredBy
      (all.filterMap fun r => adjust_usable_region r zmin zmax) p) :
    coveredBy all p ∧ zmin ≤ p ∧ p ≤ zmax := by
  obtain ⟨r', hr', hc1, hc2⟩ := hcov
  obtain ⟨r, hr, hadj⟩ := List.mem_filterMap.mp hr'
  have h := adjust_some_inv hadj
  exact ⟨⟨r, hr, by omega, by omega⟩, by omega, by omega⟩

/-- Every region of a zone's clipped list lies inside the zone bounds. -/
theorem zone_list_bounds (all : List UsableRegion) (zmin zmax : Nat)
    (r' : UsableRegion)
    (hr' : r' ∈ all.filterMap fun r => adjust_usable_region r zmin zmax) :
    zmin ≤ r'.first_page ∧ r'.last_page ≤ zmax := by
  obtain ⟨r, hr, hadj⟩ := List.mem_filterMap.mp hr'
  have h := adjust_some_inv hadj
  exact ⟨h.2.1, h.2.2.2.1⟩

/-- A page-aligned address inside the zoned physical range belongs to
exactly one of the three zone intervals (the page-aligned boundaries make
the zones tile the range without aligned gaps). -/
theorem zone_trichotomy (p : Nat) (hal : p % 4096 = 0)
    (h1 : 0x100000 ≤ p) (h2 : p ≤ 0xFFFFFFF000) :
    p ≤ 0xFFF000 ∨ (0x1000000 ≤ p ∧ p ≤ 0xFFFFF000) ∨ 0x100000000 ≤ p := by
  omega

/-- C1 (amended): for every boot memory map the three zone lists produced
by `collect_usable_regions` partition the ALL list page-wise (a
page-aligned address is covered by the ALL list exactly when it is
covered by exactly one zone list), each ALL region contributes its
clipped intersection to every zone it overlaps, no fragment crosses a
zone boundary, and the straddling region of the scenario is split into
the claimed ISA-DMA and DMA32 fragments - but `pmm::init`'s own
consistency asserts then fail on the straddling map (one ALL region vs.
two zone fragments), so initialization panics instead of succeeding. -/
theorem region_partition_and_straddle_split (ms : List MemoryRegion) (p : Nat)
    (hal : p % PAGE_SIZE = 0) :
    (coveredBy (collect_usable_regions ms).all p ↔
      (coveredBy (collect_usable_regions ms).isa p ∨
       coveredBy (collect_usable_regions ms).dma32 p ∨
       coveredBy (collect_usable_regions ms).high p)) ∧
    ¬ (coveredBy (collect_usable_regions ms).isa p ∧
       coveredBy (collect_usable_regions ms).dma32 p) ∧
    ¬ (coveredBy (collect_usable_regions ms).isa p ∧
       coveredBy (collect_usable_regions ms).high p) ∧
    ¬ (coveredBy (collect_usable_regions ms).dma32 p ∧
       coveredBy (collect_usable_regions ms).high p) ∧
    (∀ r ∈ (collect_usable_regions ms).all,
      ISA_DMA_ZONE_MIN_FIRST_PAGE_ADDR ≤ r.last_page →
      r.first_page ≤ ISA_DMA_ZONE_MAX_LAST_PAGE_ADDR →
      (⟨max r.first_page ISA_DMA_ZONE_MIN_FIRST_PAGE_ADDR,
        min r.last_page ISA_DMA_ZONE_MAX_LAST_PAGE_ADDR⟩ : UsableRegion) ∈
        (collect_usable_regions ms).isa) ∧
    (∀ r ∈ (collect_usable_regions ms).all,
      DMA32_MIN_FIRST_PAGE_ADDR ≤ r.last_page →
      r.first_page ≤ DMA32_MAX_LAST_PAGE_ADDR →
      (⟨max r.first_page DMA32_MIN_FIRST_PAGE_ADDR,
        min r.last_page DMA32_MAX_LAST_PAGE_ADDR⟩ : UsableRegion) ∈
        (collect_usable_regions ms).dma32) ∧
    (∀ r ∈ (collect_usable_regions ms).all,
      HIGH_ZONE_MIN_FIRST_PAGE_ADDR ≤ r.last_page →
      r.first_page ≤ HIGH_ZONE_MAX_LAST_PAGE_ADDR →
      (⟨max r.first_page HIGH_ZONE_MIN_FIRST_PAGE_ADDR,
        min r.last_page HIGH_ZONE_MAX_LAST_PAGE_ADDR⟩ : UsableRegion) ∈
        (collect_usable_regions ms).high) ∧
    (∀ r ∈ (collect_usable_regions ms).isa,
      ISA_DMA_ZONE_MIN_FIRST_PAGE_ADDR ≤ r.first_page ∧
      r.last_page ≤ ISA_DMA_ZONE_MAX_LAST_PAGE_ADDR) ∧
    (∀ r ∈ (collect_usable_regions ms).dma32,
      DMA32_MIN_FIRST_PAGE_ADDR ≤ r.first_page ∧
      r.last_page ≤ DMA32_MAX_LAST_PAGE_ADDR) ∧
    (∀ r ∈ (collect_usable_regions ms).high,
      HIGH_ZONE_MIN_FIRST_PAGE_ADDR ≤ r.first_page ∧
      r.last_page ≤ HIGH_ZONE_MAX_LAST_PAGE_ADDR) ∧
    (collect_usable_regions [⟨0xFFE000, 0x1002000, MemoryRegionKind.Usable⟩]).isa =
      [⟨0xFFE000, 0xFFF000⟩] ∧
    (collect_usable_regions
      [⟨0xFFE000, 0x1002000, MemoryRegionKind.Usable⟩]).dma32 =
      [⟨0x1000000, 0x1001000⟩] ∧
    (∀ szf : Nat → Nat → Nat,
      pmmInit szf [⟨0xFFE000, 0x1002000, MemoryRegionKind.Usable⟩] = none) := by
  rw [collect_isa_eq ms, collect_dma32_eq ms, collect_high_eq ms]
  simp only [ISA_DMA_ZONE_MIN_FIRST_PAGE_ADDR, ISA_DMA_ZONE_MAX_LAST_PAGE_ADDR,
    DMA32_MIN_FIRST_PAGE_ADDR, DMA32_MAX_LAST_PAGE_ADDR,
    HIGH_ZONE_MIN_FIRST_PAGE_ADDR, HIGH_ZONE_MAX_LAST_PAGE_ADDR]
  simp only [PAGE_SIZE] at hal
  refine ⟨?_, ?_, ?_, ?_, ?_, ?_, ?_, ?_, ?_, ?_, by decide, by decide, ?_⟩
  · constructor
    · intro hcov
      obtain ⟨r, hr, hc1, hc2⟩ := hcov
      have hb := mem_all_collect hr
      simp only [ISA_DMA_ZONE_MIN_FIRST_PAGE_ADDR,
        HIGH_ZONE_MAX_LAST_PAGE_ADDR, PAGE_SIZE] at hb
      rcases zone_trichotomy p hal (by omega) (by omega) with h | h | h
      · exact Or.inl
          (coveredBy_zone_list _ _ _ p ⟨r, hr, hc1, hc2⟩ (by omega) (by omega))
      · exact Or.inr (Or.inl
          (coveredBy_zone_list _ _ _ p ⟨r, hr, hc1, hc2⟩ (by omega) (by omega)))
      · exact Or.inr (Or.inr
          (coveredBy_zone_list _ _ _ p ⟨r, hr, hc1, hc2⟩ (by omega) (by omega)))
    · rintro (h | h | h)
      · exact (coveredBy_zone_list_inv _ _ _ p h).1
      · exact (coveredBy_zone_list_inv _ _ _ p h).1
      · exact (coveredBy_zone_list_inv _ _ _ p h).1
  · rintro ⟨ha, hb⟩
    have h1 := (coveredBy_zone_list_inv _ _ _ p ha).2
    have h2 := (coveredBy_zone_list_inv _ _ _ p hb).2
    omega
  · rintro ⟨ha, hb⟩
    have h1 := (coveredBy_zone_list_inv _ _ _ p ha).2
    have h2 := (coveredBy_zone_list_inv _ _ _ p hb).2
    omega
  · rintro ⟨ha, hb⟩
    have h1 := (coveredBy_zone_list_inv _ _ _ p ha).2
    have h2 := (coveredBy_zone_list_inv _ _ _ p hb).2
    omega
  · intro r hr hov1 hov2
    exact List.mem_filterMap.mpr ⟨r, hr, adjust_some_of_overlap hov1 hov2⟩
  · intro r hr hov1 hov2
    exact List.mem_filterMap.mpr ⟨r, hr, adjust_some_of_overlap hov1 hov2⟩
  · intro r hr hov1 hov2
    exact List.mem_filterMap.mpr ⟨r, hr, adjust_some_of_overlap hov1 hov2⟩
  · intro r hr
    exact zone_list_bounds _ _ _ r hr
  · intro r hr
    exact zone_list_bounds _ _ _ r hr
  · intro r hr
    exact zone_list_bounds _ _ _ r hr
  · intro szf
    have h1 : init_slab_info_ptrs_array (collect_usable_regions
        [⟨0xFFE000, 0x1002000, MemoryRegionKind.Usable⟩]) =
        some (4, ⟨[⟨0xFFF000, 0x1001000⟩], [⟨0xFFF000, 0xFFF000⟩],
          [⟨0x1000000, 0x1001000⟩], []⟩) := by decide
    unfold pmmInit
    dsimp only
    rw [h1]
    dsimp only
    by_cases hc1 : szf
        (rangeSizeOf [(⟨0xFFF000, 0xFFF000⟩ : UsableRegion)]) PAGE_SIZE ≤
        3 * 1024
    · by_cases hc2 : szf
          (rangeSizeOf [(⟨0x1000000, 0x1001000⟩ : UsableRegion)]) PAGE_SIZE ≤
          513 * 1024
      · have hia : init_allocators szf
            ⟨[⟨0xFFF000, 0x1001000⟩], [⟨0xFFF000, 0xFFF000⟩],
              [⟨0x1000000, 0x1001000⟩], []⟩ =
            some (⟨[⟨0xFFF000, 0x1001000⟩], [⟨0xFFF000, 0xFFF000⟩],
              [⟨0x1000000, 0x1001000⟩], []⟩, ⟨true, true, false⟩) := by
          simp [init_allocators, hc1, hc2]
        rw [hia]
        dsimp only
        rw [if_neg (by decide)]
      · have hia : init_allocators szf
            ⟨[⟨0xFFF000, 0x1001000⟩], [⟨0xFFF000, 0xFFF000⟩],
              [⟨0x1000000, 0x1001000⟩], []⟩ = none := by
          simp [init_allocators, hc1, hc2]
        rw [hia]
    · have hia : init_allocators szf
          ⟨[⟨0xFFF000, 0x1001000⟩], [⟨0xFFF000, 0xFFF000⟩],
            [⟨0x1000000, 0x1001000⟩], []⟩ = none := by
        simp [init_allocators, hc1]
      rw [hia]

/-- C1 counterexample: the collected region `[0xFFE000, 0x1001000]`
straddling the ISA-DMA/DMA32 boundary is split into exactly the two
claimed fragments, but `pmm::init` then fails (its consistency asserts
require the ALL-list length to equal the summed zone-list lengths and
every ALL region to appear verbatim in exactly one zone list, which a
straddling region violates) - refuting "PMM initialization still
succeeding". -/
theorem region_partition_straddle_counterexample :
    (collect_usable_regions [⟨0xFFE000, 0x1002000, MemoryRegionKind.Usable⟩]).all =
      [⟨0xFFE000, 0x1001000⟩] ∧
    (collect_usable_regions [⟨0xFFE000, 0x1002000, MemoryRegionKind.Usable⟩]).isa =
      [⟨0xFFE000, 0xFFF000⟩] ∧
    (collect_usable_regions
      [⟨0xFFE000, 0x1002000, MemoryRegionKind.Usable⟩]).dma32 =
      [⟨0x1000000, 0x1001000⟩] ∧
    (collect_usable_regions
      [⟨0xFFE000, 0x1002000, MemoryRegionKind.Usable⟩]).high = [] ∧
    pmmInit (fun _ _ => 0) [⟨0xFFE000, 0x1002000, MemoryRegionKind.Usable⟩] =
      none :=
  ⟨by decide, by decide, by decide, by decide, by decide⟩

/-- Witness for the amended C1 at the straddling map and boundary page
`0x1000000`: the partition is disjoint there. -/
theorem region_partition_and_straddle_split_witness :
    ¬ (coveredBy (collect_usable_regions
        [⟨0xFFE000, 0x1002000, MemoryRegionKind.Usable⟩]).isa 0x1000000 ∧
       coveredBy (collect_usable_regions
        [⟨0xFFE000, 0x1002000, MemoryRegionKind.Usable⟩]).dma32 0x1000000) :=
  (region_partition_and_straddle_split
    [⟨0xFFE000, 0x1002000, MemoryRegionKind.Usable⟩] 0x1000000 (by decide)).2.1
